import Mathlib

/-!
Verification of the player-movement / collision / camera core of a small
2D platformer (sources: Knight.py, Camera.py, main.py).

Modelling conventions:
- Python floats and ints are modelled as exact rationals; every arithmetic
  expression is transcribed from the source verbatim.
- A pygame rectangle is an axis-aligned box (x, y, w, h); colliderect is the
  strict axis-aligned overlap test (touching edges do not collide), taken
  from the pygame implementation of do_rects_intersect.
- The player sprite is scaled to (14 * 3.5, 19 * 3.5); pygame surfaces have
  whole-pixel dimensions, so the player box is 49 x 66.
- The explicit int() conversions in Camera.scroll truncate toward zero;
  this is pyint below.
- The dynamically added attribute sprint_decel_ratio of Knight is modelled
  as an Option field sprintDecel (absent = none).
- Drawing (screen.blit, image updates) has no effect on the modelled state
  and is omitted; animate returns the index of the frame it extracts from
  the sprite sheet, if any.
-/

/-- An axis-aligned rectangle in world pixel coordinates. -/
structure Rect where
  x : ℚ
  y : ℚ
  w : ℚ
  h : ℚ
deriving DecidableEq

def Rect.left (t : Rect) : ℚ := t.x

def Rect.right (t : Rect) : ℚ := t.x + t.w

def Rect.top (t : Rect) : ℚ := t.y

def Rect.bottom (t : Rect) : ℚ := t.y + t.h

/-- pygame colliderect: tile t against the box (bx, bY, bw, bh); strict
overlap on both axes, transcribed from do_rects_intersect. -/
def collide (t : Rect) (bx bY bw bh : ℚ) : Prop :=
  t.x < bx + bw ∧ t.y < bY + bh ∧ t.x + t.w > bx ∧ t.y + t.h > bY

instance (t : Rect) (bx bY bw bh : ℚ) : Decidable (collide t bx bY bw bh) := by
  unfold collide; infer_instance

/-- Keyboard snapshot: K_a, K_d, K_LSHIFT, K_SPACE. -/
structure Keys where
  a : Bool
  d : Bool
  lshift : Bool
  space : Bool
deriving DecidableEq

/-- State of the Knight player object (Knight.py).  rx, ry are rect.x and
rect.y; the box size is the constant 49 x 66. -/
structure Knight where
  rx : ℚ
  ry : ℚ
  vel_x : ℚ
  vel_y : ℚ
  sprinting : Bool
  jumped : Bool
  flipped : Bool
  was_sprinting_when_jumped : Bool
  sprintDecel : Option ℚ
  index : ℕ
  counter : ℕ
deriving DecidableEq

/-- Player box width: 14 * 3.5 = 49 pixels. -/
def knightW : ℚ := 49

/-- Player box height: 19 * 3.5 truncated to whole pixels = 66. -/
def knightH : ℚ := 66

/-- Knight.animate: advance the frame counter; past the cooldown, reset it,
advance the frame index modulo the cycle length and extract that frame.
Returns the extracted frame index, if any. -/
def animate (steps anim_cooldown : ℕ) (s : Knight) : Knight × Option ℕ :=
  let c := s.counter + 1
  if c > anim_cooldown then
    let i := (s.index + 1) % steps
    ({ s with counter := 0, index := i }, some i)
  else
    ({ s with counter := c }, none)

/-- The local max_vel_x / increment scaling of Knight.move_x: on the ground
the sprint key scales the value; in the air the sprint state recorded at
jump time does. -/
def moveXScaled (v modifier : ℚ) (sprinting jumped wasJS : Bool) : ℚ :=
  if !jumped then (if sprinting then v * modifier else v)
  else (if wasJS then v * modifier else v)

/-- The grounded sprint-deceleration block of Knight.move_x: capture the
speed ratio when sprint is released, then while the ratio is present and
sprint is not held either decay vel_x and the ratio by 0.99 or delete the
ratio. -/
def moveXDecel (max_vel_x sprint_max_mod : ℚ) (was_sprinting sprinting : Bool)
    (s : Knight) : Knight :=
  if !s.jumped then
    let s1 := if was_sprinting && !sprinting then
        { s with sprintDecel := some (|s.vel_x| / (max_vel_x * sprint_max_mod)) }
      else s
    if sprinting then s1
    else
      match s1.sprintDecel with
      | some r =>
        if |s1.vel_x| > max_vel_x * r then
          { s1 with vel_x := s1.vel_x * (99 / 100), sprintDecel := some (r * (99 / 100)) }
        else { s1 with sprintDecel := none }
      | none => s1
  else s

/-- The target-velocity adjustment of the left/right branches of
Knight.move_x: scale by the deceleration ratio when grounded, not
sprinting, and the ratio is present. -/
def moveXTarget (tv : ℚ) (sprinting jumped : Bool) (decel : Option ℚ) : ℚ :=
  if !sprinting && !jumped then
    match decel with
    | some r => tv * r
    | none => tv
  else tv

/-- The left-key branch of Knight.move_x: accelerate toward the (possibly
decel-scaled) negative target by at most the increment, face left. -/
def moveXLeft (key : Keys) (maxV inc : ℚ) (s : Knight) : Knight :=
  if key.a then
    { s with vel_x := max (moveXTarget (-maxV) key.lshift s.jumped s.sprintDecel)
               (s.vel_x - inc),
             flipped := true }
  else s

/-- The right-key branch of Knight.move_x, mirror image of the left one. -/
def moveXRight (key : Keys) (maxV inc : ℚ) (s : Knight) : Knight :=
  if key.d then
    { s with vel_x := min (moveXTarget maxV key.lshift s.jumped s.sprintDecel)
               (s.vel_x + inc),
             flipped := false }
  else s

/-- The final block of Knight.move_x: record the sprint state at the moment
a jump is initiated. -/
def moveXSpace (key : Keys) (s : Knight) : Knight :=
  if key.space && !s.jumped then { s with was_sprinting_when_jumped := s.sprinting }
  else s

/-- Knight.move_x, transcribed block by block: update the sprint flag from
the sprint key, run the grounded deceleration block, then the left and
right key branches with the locally scaled max speed and increment (which
depend only on fields the earlier blocks never write), then record the
sprint state if a jump starts.  was_sprinting is the sprint flag of the
previous tick. -/
def moveX (key : Keys) (increment max_vel_x sprint_inc_mod sprint_max_mod : ℚ)
    (s0 : Knight) : Knight :=
  moveXSpace key
    (moveXRight key
      (moveXScaled max_vel_x sprint_max_mod key.lshift s0.jumped s0.was_sprinting_when_jumped)
      (moveXScaled increment sprint_inc_mod key.lshift s0.jumped s0.was_sprinting_when_jumped)
      (moveXLeft key
        (moveXScaled max_vel_x sprint_max_mod key.lshift s0.jumped s0.was_sprinting_when_jumped)
        (moveXScaled increment sprint_inc_mod key.lshift s0.jumped s0.was_sprinting_when_jumped)
        (moveXDecel max_vel_x sprint_max_mod s0.sprinting key.lshift
          { s0 with sprinting := key.lshift })))

/-- Knight.apply_friction: with no movement key held, move vel_x toward 0
by at most the given amount, never crossing 0. -/
def applyFriction (key : Keys) (amount : ℚ) (s : Knight) : Knight :=
  if !(key.a || key.d) then
    if s.vel_x > 0 then { s with vel_x := max 0 (s.vel_x - amount) }
    else if s.vel_x < 0 then { s with vel_x := min 0 (s.vel_x + amount) }
    else s
  else s

/-- The friction gate of Knight.handle_movement: friction only applies on
the ground. -/
def frictionStep (key : Keys) (s : Knight) : Knight :=
  if !s.jumped then applyFriction key (13/10) s else s

/-- The jump block of Knight.handle_movement: a pressed jump key launches a
grounded player. -/
def jumpStep (key : Keys) (s : Knight) : Knight :=
  if key.space && !s.jumped then { s with vel_y := -20, jumped := true } else s

/-- Knight.handle_movement: move_x with the fixed tuning constants, then
ground friction, then the jump. -/
def handleMovement (key : Keys) (s0 : Knight) : Knight :=
  jumpStep key (frictionStep key (moveX key (1/2) (15/2) (17/10) (17/10) s0))

/-- Knight.apply_gravity with the default terminal velocity 30 and
gravity 1. -/
def applyGravity (s : Knight) : Knight :=
  if s.vel_y < 30 then { s with vel_y := s.vel_y + 1 } else s

/-- One iteration of the loop body of Knight.handle_collisions: the
horizontal test of the box offset by vel_x, then the vertical test of the
box offset by vel_y. -/
def collisionTile (s : Knight) (t : Rect) : Knight :=
  let s1 :=
    if collide t (s.rx + s.vel_x) s.ry knightW knightH then
      if s.vel_x > 0 then { s with vel_x := t.x - (s.rx + knightW) }
      else if s.vel_x < 0 then { s with vel_x := t.x + t.w - s.rx }
      else s
    else s
  if collide t s1.rx (s1.ry + s1.vel_y) knightW knightH then
    if s1.vel_y > 0 then { s1 with vel_y := t.y - (s1.ry + knightH), jumped := false }
    else if s1.vel_y < 0 then { s1 with vel_y := t.y + t.h - s1.ry }
    else s1
  else s1

/-- Knight.handle_collisions: fold the per-tile resolution over the tile
list in order. -/
def handleCollisions (tiles : List Rect) (s : Knight) : Knight :=
  tiles.foldl collisionTile s

/-- Knight.clamp_position: clamp the new x into the world, integrate y. -/
def clampPosition (world_limit : ℚ) (s : Knight) : Knight :=
  { s with rx := max 0 (min (s.rx + s.vel_x) (world_limit - knightW)),
           ry := s.ry + s.vel_y }

/-- The animation selection of Knight.update: the 16-frame run cycle with
an 8-tick cooldown while a movement key is held, else the 4-frame idle
cycle with a 10-tick cooldown. -/
def animSel (key : Keys) (s0 : Knight) : Knight :=
  if key.a || key.d then (animate 16 8 s0).1 else (animate 4 10 s0).1

/-- Knight.update: animation selection, movement, gravity, collision
resolution, position clamp. -/
def tick (key : Keys) (tiles : List Rect) (world_limit : ℚ) (s0 : Knight) : Knight :=
  clampPosition world_limit
    (handleCollisions tiles (applyGravity (handleMovement key (animSel key s0))))

/-- Python int() on a rational: truncation toward zero. -/
def pyint (q : ℚ) : ℤ := if 0 ≤ q then ⌊q⌋ else ⌈q⌉

/-- Camera state (Camera.py): the fixed follow constant, the float offset,
and the integer offset produced each scroll. -/
structure Camera where
  screen_width : ℤ
  screen_height : ℤ
  const_x : ℚ
  const_y : ℚ
  offset_float_x : ℚ
  offset_float_y : ℚ
  offset_x : ℤ
  offset_y : ℤ
deriving DecidableEq

/-- Camera constructor: offsets start at zero and CONST is computed once
from the initial player position and the viewport size. -/
def Camera.mk0 (player_x player_y : ℚ) (screen_width screen_height : ℤ) : Camera :=
  { screen_width := screen_width
    screen_height := screen_height
    const_x := -(screen_width : ℚ) / 2 + player_x / 4
    const_y := -player_y
    offset_float_x := 0
    offset_float_y := 0
    offset_x := 0
    offset_y := 0 }

/-- Camera.scroll: lerp the float offset toward the target, truncate to an
integer, then clamp into the world borders. -/
def Camera.scroll (c : Camera) (player_x player_y : ℚ)
    (left_border right_border top_border bottom_border : ℤ) : Camera :=
  let target_x := player_x + c.const_x
  let target_y := player_y + c.const_y
  let ofx := c.offset_float_x + (target_x - c.offset_float_x) * (1/10)
  let ofy := c.offset_float_y + (target_y - c.offset_float_y) * (1/10)
  { c with offset_float_x := ofx
           offset_float_y := ofy
           offset_x := min (max left_border (pyint ofx)) (right_border - c.screen_width)
           offset_y := min (max top_border (pyint ofy)) (bottom_border - c.screen_height) }

/-- One recorded call to Camera.scroll: the player position read that tick
and the border arguments. -/
structure ScrollCall where
  player_x : ℚ
  player_y : ℚ
  left_border : ℤ
  right_border : ℤ
  top_border : ℤ
  bottom_border : ℤ

/-- A sequence of scroll calls applied in order. -/
def scrollRun (c : Camera) (calls : List ScrollCall) : Camera :=
  calls.foldl
    (fun c a => c.scroll a.player_x a.player_y a.left_border a.right_border
      a.top_border a.bottom_border) c

/-! ### Helper lemmas: which fields each phase can touch -/

lemma animate_untouched (steps cd : ℕ) (s : Knight) :
    (animate steps cd s).1.rx = s.rx ∧ (animate steps cd s).1.ry = s.ry ∧
    (animate steps cd s).1.vel_x = s.vel_x ∧ (animate steps cd s).1.vel_y = s.vel_y ∧
    (animate steps cd s).1.sprinting = s.sprinting ∧ (animate steps cd s).1.jumped = s.jumped ∧
    (animate steps cd s).1.was_sprinting_when_jumped = s.was_sprinting_when_jumped ∧
    (animate steps cd s).1.sprintDecel = s.sprintDecel := by
  simp only [animate]
  split <;> exact ⟨rfl, rfl, rfl, rfl, rfl, rfl, rfl, rfl⟩

lemma moveXDecel_untouched (m mod : ℚ) (ws spr : Bool) (s : Knight) :
    (moveXDecel m mod ws spr s).rx = s.rx ∧ (moveXDecel m mod ws spr s).ry = s.ry ∧
    (moveXDecel m mod ws spr s).vel_y = s.vel_y ∧
    (moveXDecel m mod ws spr s).jumped = s.jumped ∧
    (moveXDecel m mod ws spr s).sprinting = s.sprinting ∧
    (moveXDecel m mod ws spr s).flipped = s.flipped ∧
    (moveXDecel m mod ws spr s).was_sprinting_when_jumped = s.was_sprinting_when_jumped ∧
    (moveXDecel m mod ws spr s).index = s.index ∧
    (moveXDecel m mod ws spr s).counter = s.counter := by
  unfold moveXDecel
  by_cases hj : s.jumped <;> by_cases hw : ws <;> by_cases hspr : spr <;>
    rcases hd : s.sprintDecel with _ | r <;>
    simp [hj, hw, hspr, hd] <;>
    split <;> simp

lemma moveXDecel_velx (m mod : ℚ) (ws spr : Bool) (s : Knight) :
    (moveXDecel m mod ws spr s).vel_x = s.vel_x ∨
    (moveXDecel m mod ws spr s).vel_x = s.vel_x * (99 / 100) := by
  unfold moveXDecel
  by_cases hj : s.jumped <;> by_cases hw : ws <;> by_cases hspr : spr <;>
    rcases hd : s.sprintDecel with _ | r <;>
    simp [hj, hw, hspr, hd] <;>
    split <;> simp

lemma moveXLeft_untouched (key : Keys) (maxV inc : ℚ) (s : Knight) :
    (moveXLeft key maxV inc s).rx = s.rx ∧ (moveXLeft key maxV inc s).ry = s.ry ∧
    (moveXLeft key maxV inc s).vel_y = s.vel_y ∧
    (moveXLeft key maxV inc s).jumped = s.jumped ∧
    (moveXLeft key maxV inc s).sprinting = s.sprinting ∧
    (moveXLeft key maxV inc s).was_sprinting_when_jumped = s.was_sprinting_when_jumped ∧
    (moveXLeft key maxV inc s).sprintDecel = s.sprintDecel ∧
    (moveXLeft key maxV inc s).index = s.index ∧
    (moveXLeft key maxV inc s).counter = s.counter := by
  unfold moveXLeft
  split <;> exact ⟨rfl, rfl, rfl, rfl, rfl, rfl, rfl, rfl, rfl⟩

lemma moveXRight_untouched (key : Keys) (maxV inc : ℚ) (s : Knight) :
    (moveXRight key maxV inc s).rx = s.rx ∧ (moveXRight key maxV inc s).ry = s.ry ∧
    (moveXRight key maxV inc s).vel_y = s.vel_y ∧
    (moveXRight key maxV inc s).jumped = s.jumped ∧
    (moveXRight key maxV inc s).sprinting = s.sprinting ∧
    (moveXRight key maxV inc s).was_sprinting_when_jumped = s.was_sprinting_when_jumped ∧
    (moveXRight key maxV inc s).sprintDecel = s.sprintDecel ∧
    (moveXRight key maxV inc s).index = s.index ∧
    (moveXRight key maxV inc s).counter = s.counter := by
  unfold moveXRight
  split <;> exact ⟨rfl, rfl, rfl, rfl, rfl, rfl, rfl, rfl, rfl⟩

lemma moveXSpace_untouched (key : Keys) (s : Knight) :
    (moveXSpace key s).rx = s.rx ∧ (moveXSpace key s).ry = s.ry ∧
    (moveXSpace key s).vel_x = s.vel_x ∧ (moveXSpace key s).vel_y = s.vel_y ∧
    (moveXSpace key s).jumped = s.jumped ∧ (moveXSpace key s).sprinting = s.sprinting ∧
    (moveXSpace key s).flipped = s.flipped ∧
    (moveXSpace key s).sprintDecel = s.sprintDecel ∧
    (moveXSpace key s).index = s.index ∧ (moveXSpace key s).counter = s.counter := by
  unfold moveXSpace
  split <;> exact ⟨rfl, rfl, rfl, rfl, rfl, rfl, rfl, rfl, rfl, rfl⟩

lemma moveX_untouched (key : Keys) (i m a b : ℚ) (s : Knight) :
    (moveX key i m a b s).rx = s.rx ∧ (moveX key i m a b s).ry = s.ry ∧
    (moveX key i m a b s).vel_y = s.vel_y ∧ (moveX key i m a b s).jumped = s.jumped ∧
    (moveX key i m a b s).index = s.index ∧ (moveX key i m a b s).counter = s.counter := by
  unfold moveX
  obtain ⟨d1, d2, d3, d4, -, -, -, d8, d9⟩ :=
    moveXDecel_untouched m b s.sprinting key.lshift { s with sprinting := key.lshift }
  obtain ⟨l1, l2, l3, l4, -, -, -, l8, l9⟩ := moveXLeft_untouched key
    (moveXScaled m b key.lshift s.jumped s.was_sprinting_when_jumped)
    (moveXScaled i a key.lshift s.jumped s.was_sprinting_when_jumped)
    (moveXDecel m b s.sprinting key.lshift { s with sprinting := key.lshift })
  obtain ⟨r1, r2, r3, r4, -, -, -, r8, r9⟩ := moveXRight_untouched key
    (moveXScaled m b key.lshift s.jumped s.was_sprinting_when_jumped)
    (moveXScaled i a key.lshift s.jumped s.was_sprinting_when_jumped)
    (moveXLeft key
      (moveXScaled m b key.lshift s.jumped s.was_sprinting_when_jumped)
      (moveXScaled i a key.lshift s.jumped s.was_sprinting_when_jumped)
      (moveXDecel m b s.sprinting key.lshift { s with sprinting := key.lshift }))
  obtain ⟨p1, p2, -, p4, p5, -, -, -, p9, p10⟩ := moveXSpace_untouched key
    (moveXRight key
      (moveXScaled m b key.lshift s.jumped s.was_sprinting_when_jumped)
      (moveXScaled i a key.lshift s.jumped s.was_sprinting_when_jumped)
      (moveXLeft key
        (moveXScaled m b key.lshift s.jumped s.was_sprinting_when_jumped)
        (moveXScaled i a key.lshift s.jumped s.was_sprinting_when_jumped)
        (moveXDecel m b s.sprinting key.lshift { s with sprinting := key.lshift })))
  refine ⟨?_, ?_, ?_, ?_, ?_, ?_⟩
  · rw [p1, r1, l1, d1]
  · rw [p2, r2, l2, d2]
  · rw [p4, r3, l3, d3]
  · rw [p5, r4, l4, d4]
  · rw [p9, r8, l8, d8]
  · rw [p10, r9, l9, d9]

lemma moveX_noAD (key : Keys) (i m a b : ℚ) (s : Knight)
    (ha : key.a = false) (hd : key.d = false) :
    (moveX key i m a b s).vel_x
      = (moveXDecel m b s.sprinting key.lshift { s with sprinting := key.lshift }).vel_x ∧
    (moveX key i m a b s).sprintDecel
      = (moveXDecel m b s.sprinting key.lshift { s with sprinting := key.lshift }).sprintDecel := by
  unfold moveX moveXLeft moveXRight
  obtain ⟨-, -, v3, -, -, -, -, v8, -, -⟩ := moveXSpace_untouched key
    (moveXDecel m b s.sprinting key.lshift { s with sprinting := key.lshift })
  simp only [ha, hd, Bool.false_eq_true, if_false]
  exact ⟨v3, v8⟩

lemma applyFriction_untouched (key : Keys) (amt : ℚ) (s : Knight) :
    (applyFriction key amt s).rx = s.rx ∧ (applyFriction key amt s).ry = s.ry ∧
    (applyFriction key amt s).vel_y = s.vel_y ∧ (applyFriction key amt s).jumped = s.jumped ∧
    (applyFriction key amt s).sprinting = s.sprinting ∧
    (applyFriction key amt s).sprintDecel = s.sprintDecel ∧
    (applyFriction key amt s).index = s.index ∧ (applyFriction key amt s).counter = s.counter := by
  unfold applyFriction
  repeat' split
  all_goals simp

lemma frictionStep_untouched (key : Keys) (s : Knight) :
    (frictionStep key s).rx = s.rx ∧ (frictionStep key s).ry = s.ry ∧
    (frictionStep key s).vel_y = s.vel_y ∧ (frictionStep key s).jumped = s.jumped ∧
    (frictionStep key s).sprinting = s.sprinting ∧
    (frictionStep key s).sprintDecel = s.sprintDecel ∧
    (frictionStep key s).index = s.index ∧ (frictionStep key s).counter = s.counter := by
  unfold frictionStep
  split
  · exact applyFriction_untouched key (13/10) s
  · exact ⟨rfl, rfl, rfl, rfl, rfl, rfl, rfl, rfl⟩

lemma jumpStep_untouched (key : Keys) (s : Knight) :
    (jumpStep key s).rx = s.rx ∧ (jumpStep key s).ry = s.ry ∧
    (jumpStep key s).vel_x = s.vel_x ∧ (jumpStep key s).sprinting = s.sprinting ∧
    (jumpStep key s).flipped = s.flipped ∧
    (jumpStep key s).was_sprinting_when_jumped = s.was_sprinting_when_jumped ∧
    (jumpStep key s).sprintDecel = s.sprintDecel ∧
    (jumpStep key s).index = s.index ∧ (jumpStep key s).counter = s.counter := by
  unfold jumpStep
  split <;> exact ⟨rfl, rfl, rfl, rfl, rfl, rfl, rfl, rfl, rfl⟩

lemma jumpStep_jumped (key : Keys) (s : Knight) :
    (jumpStep key s).jumped = (s.jumped || key.space) := by
  unfold jumpStep
  split
  · next h =>
    simp only [Bool.and_eq_true, Bool.not_eq_eq_eq_not, Bool.not_true] at h
    simp [h.1, h.2]
  · next h =>
    rcases Bool.eq_false_or_eq_true s.jumped with hj | hj <;> simp [hj] at h ⊢
    simp [h]

lemma jumpStep_vel_y (key : Keys) (s : Knight) :
    (jumpStep key s).vel_y = if key.space && !s.jumped then -20 else s.vel_y := by
  unfold jumpStep
  split <;> rfl

lemma applyGravity_untouched (s : Knight) :
    (applyGravity s).rx = s.rx ∧ (applyGravity s).ry = s.ry ∧
    (applyGravity s).vel_x = s.vel_x ∧ (applyGravity s).jumped = s.jumped ∧
    (applyGravity s).index = s.index ∧ (applyGravity s).counter = s.counter := by
  unfold applyGravity
  split <;> exact ⟨rfl, rfl, rfl, rfl, rfl, rfl⟩

lemma collisionTile_untouched (s : Knight) (t : Rect) :
    (collisionTile s t).rx = s.rx ∧ (collisionTile s t).ry = s.ry ∧
    (collisionTile s t).index = s.index ∧ (collisionTile s t).counter = s.counter := by
  unfold collisionTile
  dsimp only
  refine ⟨?_, ?_, ?_, ?_⟩ <;> (repeat' split) <;> simp

lemma handleCollisions_position (tiles : List Rect) (s : Knight) :
    (handleCollisions tiles s).rx = s.rx ∧ (handleCollisions tiles s).ry = s.ry := by
  induction tiles generalizing s with
  | nil => exact ⟨rfl, rfl⟩
  | cons t ts ih =>
    have h := collisionTile_untouched s t
    have h2 := ih (collisionTile s t)
    exact ⟨h2.1.trans h.1, h2.2.trans h.2.1⟩

lemma handleMovement_position (key : Keys) (s : Knight) :
    (handleMovement key s).rx = s.rx ∧ (handleMovement key s).ry = s.ry ∧
    (handleMovement key s).index = s.index ∧ (handleMovement key s).counter = s.counter := by
  unfold handleMovement
  obtain ⟨m1, m2, -, -, m5, m6⟩ := moveX_untouched key (1/2) (15/2) (17/10) (17/10) s
  obtain ⟨f1, f2, -, -, -, -, f7, f8⟩ :=
    frictionStep_untouched key (moveX key (1/2) (15/2) (17/10) (17/10) s)
  obtain ⟨j1, j2, -, -, -, -, -, j8, j9⟩ := jumpStep_untouched key
    (frictionStep key (moveX key (1/2) (15/2) (17/10) (17/10) s))
  exact ⟨j1.trans (f1.trans m1), j2.trans (f2.trans m2),
    j8.trans (f7.trans m5), j9.trans (f8.trans m6)⟩

lemma handleMovement_jumped (key : Keys) (s : Knight) :
    (handleMovement key s).jumped = (s.jumped || key.space) := by
  unfold handleMovement
  obtain ⟨-, -, -, m4, -, -⟩ := moveX_untouched key (1/2) (15/2) (17/10) (17/10) s
  obtain ⟨-, -, -, f4, -, -, -, -⟩ :=
    frictionStep_untouched key (moveX key (1/2) (15/2) (17/10) (17/10) s)
  rw [jumpStep_jumped, f4, m4]

lemma handleMovement_vel_y (key : Keys) (s : Knight) :
    (handleMovement key s).vel_y = if key.space && !s.jumped then -20 else s.vel_y := by
  unfold handleMovement
  obtain ⟨-, -, m3, m4, -, -⟩ := moveX_untouched key (1/2) (15/2) (17/10) (17/10) s
  obtain ⟨-, -, f3, f4, -, -, -, -⟩ :=
    frictionStep_untouched key (moveX key (1/2) (15/2) (17/10) (17/10) s)
  rw [jumpStep_vel_y, f4, m4, f3, m3]

lemma handleMovement_ground_velx (key : Keys) (s : Knight) (hj : s.jumped = false) :
    (handleMovement key s).vel_x
      = (applyFriction key (13/10) (moveX key (1/2) (15/2) (17/10) (17/10) s)).vel_x := by
  unfold handleMovement frictionStep
  obtain ⟨-, -, -, m4, -, -⟩ := moveX_untouched key (1/2) (15/2) (17/10) (17/10) s
  rw [m4, hj]
  simp only [Bool.not_false, if_true]
  exact (jumpStep_untouched key
    (applyFriction key (13/10) (moveX key (1/2) (15/2) (17/10) (17/10) s))).2.2.1

lemma collisionTile_jumped_of (s : Knight) (t : Rect) :
    (collisionTile s t).jumped = true → s.jumped = true := by
  unfold collisionTile
  dsimp only
  repeat' split
  all_goals simp_all

lemma handleCollisions_jumped_of (tiles : List Rect) (s : Knight) :
    (handleCollisions tiles s).jumped = true → s.jumped = true := by
  induction tiles generalizing s with
  | nil => exact fun h => h
  | cons t ts ih =>
    intro h
    exact collisionTile_jumped_of s t (ih (collisionTile s t) h)

/-- The state of the tick pipeline just before the position clamp. -/
def tickMid (key : Keys) (tiles : List Rect) (s0 : Knight) : Knight :=
  handleCollisions tiles (applyGravity (handleMovement key (animSel key s0)))

lemma tick_eq_clamp_tickMid (key : Keys) (tiles : List Rect) (L : ℚ) (s0 : Knight) :
    tick key tiles L s0 = clampPosition L (tickMid key tiles s0) := rfl

lemma animSel_untouched (key : Keys) (s0 : Knight) :
    (animSel key s0).rx = s0.rx ∧ (animSel key s0).ry = s0.ry ∧
    (animSel key s0).vel_x = s0.vel_x ∧ (animSel key s0).vel_y = s0.vel_y ∧
    (animSel key s0).sprinting = s0.sprinting ∧ (animSel key s0).jumped = s0.jumped ∧
    (animSel key s0).was_sprinting_when_jumped = s0.was_sprinting_when_jumped ∧
    (animSel key s0).sprintDecel = s0.sprintDecel := by
  unfold animSel
  split
  · exact animate_untouched 16 8 s0
  · exact animate_untouched 4 10 s0

lemma tickMid_position (key : Keys) (tiles : List Rect) (s0 : Knight) :
    (tickMid key tiles s0).rx = s0.rx ∧ (tickMid key tiles s0).ry = s0.ry := by
  unfold tickMid
  obtain ⟨a1, a2, -, -, -, -, -, -⟩ := animSel_untouched key s0
  obtain ⟨p1, p2, -, -⟩ := handleMovement_position key (animSel key s0)
  obtain ⟨g1, g2, -, -, -, -⟩ := applyGravity_untouched (handleMovement key (animSel key s0))
  obtain ⟨c1, c2⟩ := handleCollisions_position tiles
    (applyGravity (handleMovement key (animSel key s0)))
  exact ⟨c1.trans (g1.trans (p1.trans a1)), c2.trans (g2.trans (p2.trans a2))⟩

/-! ### Concrete inputs used by counterexamples and witnesses -/

/-- No key held. -/
def keyNone : Keys := ⟨false, false, false, false⟩

/-- Jump key only. -/
def keyJump : Keys := ⟨false, false, false, true⟩

/-- A resting grounded player at the origin. -/
def baseKnight : Knight :=
  { rx := 0, ry := 0, vel_x := 0, vel_y := 0, sprinting := false, jumped := false,
    flipped := false, was_sprinting_when_jumped := false, sprintDecel := none,
    index := 0, counter := 0 }

/-- An airborne player moving diagonally down-right at (7.5, 5). -/
def kCorner : Knight :=
  { baseKnight with vel_x := 15/2, vel_y := 5, jumped := true }

/-- A tile sitting diagonally below-right of the player at the origin. -/
def tCorner : Rect := ⟨54, 70, 50, 50⟩

/-- A grounded player moving right at sprint-max speed with sprint held. -/
def kSprint : Knight :=
  { baseKnight with vel_x := 51/4, sprinting := true }

/-- An airborne player drifting right at speed one half. -/
def kDrift : Knight :=
  { baseKnight with vel_x := 1/2, jumped := true }

/-! ### Claim C10: animation frame extraction stays within the sheet -/

lemma animate_extract (steps cd : ℕ) (s : Knight) (i : ℕ) (hpos : 0 < steps)
    (h : (animate steps cd s).2 = some i) :
    i = (s.index + 1) % steps ∧ i < steps := by
  unfold animate at h
  dsimp only at h
  split at h
  · simp only [Option.some.injEq] at h
    subst h
    exact ⟨rfl, Nat.mod_lt _ hpos⟩
  · simp at h

/-- C10: whenever the animation step selected by Knight.update extracts a
sprite frame, the frame index has just been reduced modulo the active cycle
length (16 for the run cycle chosen when a movement key is held, 4 for
idle), so it lies in the interval from 0 to steps minus one and the
14-pixel-wide frame extraction stays within the sheet of width 14 times
steps, including on the tick the animation switches from the 16-frame run
cycle to the 4-frame idle cycle. -/
theorem animate_frame_in_cycle (key : Keys) (s : Knight) (i : ℕ)
    (h : ((if key.a || key.d then animate 16 8 s else animate 4 10 s).2 = some i)) :
    i = (s.index + 1) % (if key.a || key.d then 16 else 4) ∧
    i < (if key.a || key.d then 16 else 4) ∧
    i * 14 + 14 ≤ (if key.a || key.d then 16 else 4) * 14 := by
  by_cases hk : (key.a || key.d) = true
  · rw [if_pos hk] at h
    obtain ⟨h1, h2⟩ := animate_extract 16 8 s i (by norm_num) h
    rw [if_pos hk]
    exact ⟨h1, h2, by omega⟩
  · rw [if_neg hk] at h
    obtain ⟨h1, h2⟩ := animate_extract 4 10 s i (by norm_num) h
    rw [if_neg hk]
    exact ⟨h1, h2, by omega⟩

/-- C10 witness: on the tick the animation switches from the run cycle
(index 15) to the idle cycle, the extracted frame is 0. -/
theorem animate_frame_in_cycle_witness :
    0 = (({ baseKnight with index := 15, counter := 10 } : Knight).index + 1)
        % (if keyNone.a || keyNone.d then 16 else 4) ∧
    0 < (if keyNone.a || keyNone.d then 16 else 4) ∧
    0 * 14 + 14 ≤ (if keyNone.a || keyNone.d then 16 else 4) * 14 :=
  animate_frame_in_cycle keyNone { baseKnight with index := 15, counter := 10 } 0 rfl

/-! ### Claim C2: the jump impulse and the first gravity applications -/

/-- C2: if the jump key is pressed on a tick where the player is grounded,
the jump step of that tick sets vy to -20 and marks the player airborne;
gravity then runs in the same tick, so vy is -19 when the tick ends and
still -19 through the movement phase of the next tick (with no tiles), the
single gravity application between the two jump-step observation points. -/
theorem jump_gravity_sequence (key key2 : Keys) (s : Knight) (L : ℚ)
    (hspace : key.space = true) (hj : s.jumped = false) :
    (handleMovement key s).vel_y = -20 ∧
    (handleMovement key s).jumped = true ∧
    (tick key [] L s).vel_y = -19 ∧
    (tick key [] L s).jumped = true ∧
    (handleMovement key2 (tick key [] L s)).vel_y = -19 := by
  obtain ⟨-, -, -, -, -, aj, -, -⟩ := animSel_untouched key s
  have hAj : (animSel key s).jumped = false := aj.trans hj
  have hm1 : (handleMovement key (animSel key s)).vel_y = -20 := by
    rw [handleMovement_vel_y]
    simp [hspace, hAj]
  have hm2 : (handleMovement key (animSel key s)).jumped = true := by
    rw [handleMovement_jumped, hAj]
    simp [hspace]
  have hg : (applyGravity (handleMovement key (animSel key s))).vel_y = -19 := by
    unfold applyGravity
    rw [if_pos (by rw [hm1]; norm_num), hm1]
    norm_num
  have hgj : (applyGravity (handleMovement key (animSel key s))).jumped = true :=
    ((applyGravity_untouched (handleMovement key (animSel key s))).2.2.2.1).trans hm2
  have ht : (tick key [] L s).vel_y = -19 := hg
  have htj : (tick key [] L s).jumped = true := hgj
  refine ⟨?_, ?_, ht, htj, ?_⟩
  · rw [handleMovement_vel_y]
    simp [hspace, hj]
  · rw [handleMovement_jumped, hj]
    simp [hspace]
  · rw [handleMovement_vel_y, htj]
    simp [ht]

/-- C2 witness: the jump scenario evaluated from a resting grounded state. -/
theorem jump_gravity_sequence_witness :
    (handleMovement keyJump baseKnight).vel_y = -20 ∧
    (handleMovement keyJump baseKnight).jumped = true ∧
    (tick keyJump [] 1000 baseKnight).vel_y = -19 ∧
    (tick keyJump [] 1000 baseKnight).jumped = true ∧
    (handleMovement keyNone (tick keyJump [] 1000 baseKnight)).vel_y = -19 :=
  jump_gravity_sequence keyJump keyNone baseKnight 1000 rfl rfl

/-! ### Claim C9: the airborne flag is set only by a jump -/

/-- C9: the airborne flag (jumped) becomes true only on a tick where the
jump key is pressed while it is false: after any tick the flag is true only
if it already was or the jump key was held, and a player who walks off a
ledge without jumping (flag false, jump key up) is still flagged grounded
after the tick, whatever the tiles; consequently the grounded gate still
routes vel_x through apply_friction (and the grounded deceleration block)
rather than the airborne sprint-carry branch. -/
theorem airborne_only_by_jump :
    (∀ (key : Keys) (tiles : List Rect) (L : ℚ) (s : Knight),
      (tick key tiles L s).jumped = true → s.jumped = true ∨ key.space = true) ∧
    (∀ (key : Keys) (tiles : List Rect) (L : ℚ) (s : Knight),
      s.jumped = false → key.space = false → (tick key tiles L s).jumped = false) ∧
    (∀ (key : Keys) (s : Knight), s.jumped = false →
      (handleMovement key s).vel_x
        = (applyFriction key (13/10) (moveX key (1/2) (15/2) (17/10) (17/10) s)).vel_x) := by
  have main : ∀ (key : Keys) (tiles : List Rect) (L : ℚ) (s : Knight),
      (tick key tiles L s).jumped = true → s.jumped = true ∨ key.space = true := by
    intro key tiles L s h
    have h1 : (tickMid key tiles s).jumped = true := h
    have h2 := handleCollisions_jumped_of tiles
      (applyGravity (handleMovement key (animSel key s))) h1
    have h3 : (handleMovement key (animSel key s)).jumped = true := by
      rw [← (applyGravity_untouched (handleMovement key (animSel key s))).2.2.2.1]
      exact h2
    rw [handleMovement_jumped, (animSel_untouched key s).2.2.2.2.2.1] at h3
    simpa using h3
  refine ⟨main, ?_, ?_⟩
  · intro key tiles L s hj hsp
    cases hb : (tick key tiles L s).jumped
    · rfl
    · rcases main key tiles L s hb with h | h
      · rw [h] at hj
        cases hj
      · rw [h] at hsp
        cases hsp
  · intro key s hj
    exact handleMovement_ground_velx key s hj

/-- C9 witness: each part applied at a concrete input. -/
theorem airborne_only_by_jump_witness :
    (kDrift.jumped = true ∨ keyNone.space = true) ∧
    (tick keyNone [] 1000 baseKnight).jumped = false ∧
    (handleMovement keyNone baseKnight).vel_x
      = (applyFriction keyNone (13/10)
          (moveX keyNone (1/2) (15/2) (17/10) (17/10) baseKnight)).vel_x := by
  have hd : (tick keyNone [] 1000 kDrift).jumped = true := by
    show (handleCollisions [] (applyGravity (handleMovement keyNone
      (animSel keyNone kDrift)))).jumped = true
    unfold handleCollisions
    rw [List.foldl_nil,
      (applyGravity_untouched (handleMovement keyNone (animSel keyNone kDrift))).2.2.2.1,
      handleMovement_jumped, (animSel_untouched keyNone kDrift).2.2.2.2.2.1]
    rfl
  exact ⟨airborne_only_by_jump.1 keyNone [] 1000 kDrift hd,
    airborne_only_by_jump.2.1 keyNone [] 1000 baseKnight rfl rfl,
    airborne_only_by_jump.2.2 keyNone baseKnight rfl⟩

/-! ### Claim C5: the per-tile collision update -/

/-- The per-tile collision update as the specification words it: against
the pre-collision rectangle, clamp vx to the facing tile edge when the
horizontally offset box overlaps, and independently clamp vy (setting the
grounded flag when falling) when the vertically offset box overlaps. -/
def specTileStep (s : Knight) (t : Rect) : Knight :=
  { s with
    vel_x :=
      if collide t (s.rx + s.vel_x) s.ry knightW knightH then
        if s.vel_x > 0 then t.left - (s.rx + knightW)
        else if s.vel_x < 0 then t.right - s.rx
        else s.vel_x
      else s.vel_x,
    vel_y :=
      if collide t s.rx (s.ry + s.vel_y) knightW knightH then
        if s.vel_y > 0 then t.top - (s.ry + knightH)
        else if s.vel_y < 0 then t.bottom - s.ry
        else s.vel_y
      else s.vel_y,
    jumped :=
      if collide t s.rx (s.ry + s.vel_y) knightW knightH then
        if s.vel_y > 0 then false else s.jumped
      else s.jumped }

lemma collisionTile_eq_spec (s : Knight) (t : Rect) :
    collisionTile s t = specTileStep s t := by
  by_cases h1 : collide t (s.rx + s.vel_x) s.ry knightW knightH <;>
  by_cases h2 : collide t s.rx (s.ry + s.vel_y) knightW knightH <;>
  by_cases hx1 : s.vel_x > 0 <;> by_cases hx2 : s.vel_x < 0 <;>
  by_cases hy1 : s.vel_y > 0 <;> by_cases hy2 : s.vel_y < 0 <;>
  simp [collisionTile, specTileStep, Rect.left, Rect.right, Rect.top, Rect.bottom,
    h1, h2, hx1, hx2, hy1, hy2]

/-- C5: handle_collisions is the in-order fold of exactly the per-tile
update the specification describes; the player rectangle itself is never
moved between tiles (all tests use the pre-collision rectangle), and for a
tile list ending in t the final state is that per-tile update of t applied
last, so the last matching tile in iteration order determines each axis
final clamp. -/
theorem collision_resolution_shape (tiles ts : List Rect) (t : Rect) (s : Knight) :
    handleCollisions tiles s = tiles.foldl specTileStep s ∧
    (handleCollisions tiles s).rx = s.rx ∧ (handleCollisions tiles s).ry = s.ry ∧
    handleCollisions (ts ++ [t]) s = specTileStep (handleCollisions ts s) t := by
  have hfun : collisionTile = specTileStep :=
    funext fun s => funext fun t => collisionTile_eq_spec s t
  refine ⟨?_, (handleCollisions_position tiles s).1,
    (handleCollisions_position tiles s).2, ?_⟩
  · unfold handleCollisions
    rw [hfun]
  · unfold handleCollisions
    rw [List.foldl_append, List.foldl_cons, List.foldl_nil]
    exact collisionTile_eq_spec _ t

/-! ### Claim C8: camera follow target and smoothing -/

lemma scrollRun_const (c : Camera) (calls : List ScrollCall) :
    (scrollRun c calls).const_x = c.const_x ∧ (scrollRun c calls).const_y = c.const_y := by
  induction calls generalizing c with
  | nil => exact ⟨rfl, rfl⟩
  | cons a l ih =>
    exact ⟨(ih (c.scroll a.player_x a.player_y a.left_border a.right_border
        a.top_border a.bottom_border)).1,
      (ih (c.scroll a.player_x a.player_y a.left_border a.right_border
        a.top_border a.bottom_border)).2⟩

/-- C8: the camera's follow target is, on every tick, the player's current
position plus the constant CONST computed once at construction as
(-viewportWidth/2 + initialPlayerX/4, -initialPlayerY); CONST is never
re-derived (every scroll call, and every sequence of scroll calls, leaves
it unchanged); each scroll updates the float offset per axis by adding one
tenth of the gap to the target, then truncates it toward zero (not rounded:
1.9 truncates to 1 and -1.9 to -1) to the integer offset that the border
clamp then acts on. -/
theorem camera_follow_and_smoothing (player_x player_y : ℚ) (sw sh : ℤ) (c : Camera)
    (px py : ℚ) (lb rb tb bb : ℤ) (calls : List ScrollCall) :
    (Camera.mk0 player_x player_y sw sh).const_x = -(sw : ℚ) / 2 + player_x / 4 ∧
    (Camera.mk0 player_x player_y sw sh).const_y = -player_y ∧
    (c.scroll px py lb rb tb bb).const_x = c.const_x ∧
    (c.scroll px py lb rb tb bb).const_y = c.const_y ∧
    (scrollRun c calls).const_x = c.const_x ∧
    (scrollRun c calls).const_y = c.const_y ∧
    (c.scroll px py lb rb tb bb).offset_float_x
      = c.offset_float_x + ((px + c.const_x) - c.offset_float_x) * (1/10) ∧
    (c.scroll px py lb rb tb bb).offset_float_y
      = c.offset_float_y + ((py + c.const_y) - c.offset_float_y) * (1/10) ∧
    (c.scroll px py lb rb tb bb).offset_x
      = min (max lb (pyint (c.offset_float_x + ((px + c.const_x) - c.offset_float_x) * (1/10))))
          (rb - c.screen_width) ∧
    (c.scroll px py lb rb tb bb).offset_y
      = min (max tb (pyint (c.offset_float_y + ((py + c.const_y) - c.offset_float_y) * (1/10))))
          (bb - c.screen_height) ∧
    pyint (19/10) = 1 ∧ pyint (-(19/10)) = -1 := by
  refine ⟨rfl, rfl, rfl, rfl, (scrollRun_const c calls).1, (scrollRun_const c calls).2,
    rfl, rfl, rfl, rfl, ?_, ?_⟩
  · simp only [pyint]
    norm_num [Int.floor_eq_iff]
  · simp only [pyint]
    norm_num [Int.ceil_eq_iff]

/-! ### Claim C7: camera border clamp -/

/-- C7 (amended): after every Camera.scroll call whose borders leave room
for the viewport on each axis (left + viewportWidth ≤ right and
top + viewportHeight ≤ bottom), the integer camera offset lies within
[left, right − viewportWidth] horizontally and [top, bottom −
viewportHeight] vertically, the clamp acting on the truncated smoothed
offset. -/
theorem camera_offset_in_bounds (c : Camera) (px py : ℚ) (lb rb tb bb : ℤ)
    (hx : lb + c.screen_width ≤ rb) (hy : tb + c.screen_height ≤ bb) :
    lb ≤ (c.scroll px py lb rb tb bb).offset_x ∧
    (c.scroll px py lb rb tb bb).offset_x ≤ rb - c.screen_width ∧
    tb ≤ (c.scroll px py lb rb tb bb).offset_y ∧
    (c.scroll px py lb rb tb bb).offset_y ≤ bb - c.screen_height := by
  refine ⟨?_, min_le_right _ _, ?_, min_le_right _ _⟩
  · exact le_min (le_max_left _ _) (by omega)
  · exact le_min (le_max_left _ _) (by omega)

/-- C7 witness: the game camera scrolled once inside a 2000 x 1500 world. -/
theorem camera_offset_in_bounds_witness :
    (0 : ℤ) ≤ ((Camera.mk0 450 470 900 700).scroll 450 470 0 2000 0 1500).offset_x ∧
    ((Camera.mk0 450 470 900 700).scroll 450 470 0 2000 0 1500).offset_x
      ≤ 2000 - (Camera.mk0 450 470 900 700).screen_width ∧
    (0 : ℤ) ≤ ((Camera.mk0 450 470 900 700).scroll 450 470 0 2000 0 1500).offset_y ∧
    ((Camera.mk0 450 470 900 700).scroll 450 470 0 2000 0 1500).offset_y
      ≤ 1500 - (Camera.mk0 450 470 900 700).screen_height :=
  camera_offset_in_bounds (Camera.mk0 450 470 900 700) 450 470 0 2000 0 1500
    (by decide) (by decide)

/-- C7 counterexample: with the degenerate borders (0, 0, 0, 0) the clamped
offset is -900, outside the claimed interval [left, right − viewportWidth]
= [0, -900], so the unconditional claim fails. -/
theorem camera_offset_out_of_bounds :
    ¬ ((0 : ℤ) ≤ ((Camera.mk0 450 470 900 700).scroll 450 470 0 0 0 0).offset_x) := by
  intro h
  have h2 : ((Camera.mk0 450 470 900 700).scroll 450 470 0 0 0 0).offset_x
      ≤ 0 - (Camera.mk0 450 470 900 700).screen_width := min_le_right _ _
  have h3 : (Camera.mk0 450 470 900 700).screen_width = 900 := rfl
  omega

/-! ### Claim C6: horizontal world clamp -/

/-- C6 (amended): after every tick with worldWidthLimit at least the player
width 49, the new x is clamp(x + vx, 0, worldWidthLimit − width) with vx
the post-collision horizontal velocity, hence lies within
[0, worldWidthLimit − width], and the new y is y + vy with no vertical
world clamp. -/
theorem tick_world_clamp (key : Keys) (tiles : List Rect) (L : ℚ) (s : Knight)
    (hL : knightW ≤ L) :
    0 ≤ (tick key tiles L s).rx ∧
    (tick key tiles L s).rx ≤ L - knightW ∧
    (tick key tiles L s).rx
      = max 0 (min (s.rx + (tickMid key tiles s).vel_x) (L - knightW)) ∧
    (tick key tiles L s).ry = s.ry + (tickMid key tiles s).vel_y := by
  obtain ⟨p1, p2⟩ := tickMid_position key tiles s
  have hx : (tick key tiles L s).rx
      = max 0 (min (s.rx + (tickMid key tiles s).vel_x) (L - knightW)) := by
    rw [show (tick key tiles L s).rx
        = max 0 (min ((tickMid key tiles s).rx + (tickMid key tiles s).vel_x) (L - knightW))
      from rfl, p1]
  have hy : (tick key tiles L s).ry = s.ry + (tickMid key tiles s).vel_y := by
    rw [show (tick key tiles L s).ry
        = (tickMid key tiles s).ry + (tickMid key tiles s).vel_y from rfl, p2]
  have h0 : (0 : ℚ) ≤ L - knightW := by linarith
  exact ⟨hx ▸ le_max_left _ _, hx ▸ max_le h0 (min_le_right _ _), hx, hy⟩

/-- C6 witness: a tick in the 1000-pixel-wide world. -/
theorem tick_world_clamp_witness :
    0 ≤ (tick keyNone [] 1000 baseKnight).rx ∧
    (tick keyNone [] 1000 baseKnight).rx ≤ 1000 - knightW ∧
    (tick keyNone [] 1000 baseKnight).rx
      = max 0 (min (baseKnight.rx + (tickMid keyNone [] baseKnight).vel_x)
          (1000 - knightW)) ∧
    (tick keyNone [] 1000 baseKnight).ry
      = baseKnight.ry + (tickMid keyNone [] baseKnight).vel_y :=
  tick_world_clamp keyNone [] 1000 baseKnight (by norm_num [knightW])

/-- C6 counterexample: with the nonnegative worldWidthLimit 0 the clamped x
is 0, which is not within the claimed interval [0, worldWidthLimit −
playerWidth] = [0, −49], so the claim over every nonnegative limit fails. -/
theorem tick_world_clamp_counterexample :
    ¬ ((tick keyNone [] 0 kDrift).rx ≤ 0 - knightW) := by
  intro h
  have h0 : (0 : ℚ) ≤ (tick keyNone [] 0 kDrift).rx := le_max_left _ _
  have h1 : (0 : ℚ) ≤ 0 - knightW := le_trans h0 h
  norm_num [knightW] at h1

/-! ### Claim C4: sprint deceleration ratio mechanics -/

/-- C4: in move_x with the game constants and no movement keys held, on the
tick sprint transitions from held to released while grounded the ratio is
captured as absolute vx divided by maxSpeed times 1.7 and immediately
drives the decay branch: if the absolute vx exceeds maxSpeed times the
ratio then vx and the ratio are both multiplied by 0.99, else the ratio is
deleted; on a later grounded non-sprinting tick with the ratio r present
the same decision runs against r, clearing it exactly on the first tick
where the bound is not exceeded; and a release at sprint-max speed
(|vx| = 7.5 * 1.7) captures the ratio as exactly 1. -/
theorem sprint_decel_mechanics (key : Keys) (s : Knight) (r : ℚ)
    (ha : key.a = false) (hd : key.d = false) (hls : key.lshift = false)
    (hj : s.jumped = false) :
    (s.sprinting = true →
      ((|s.vel_x| > (15/2) * (|s.vel_x| / ((15/2) * (17/10))) →
        (moveX key (1/2) (15/2) (17/10) (17/10) s).vel_x = s.vel_x * (99/100) ∧
        (moveX key (1/2) (15/2) (17/10) (17/10) s).sprintDecel
          = some ((|s.vel_x| / ((15/2) * (17/10))) * (99/100))) ∧
      (¬ (|s.vel_x| > (15/2) * (|s.vel_x| / ((15/2) * (17/10)))) →
        (moveX key (1/2) (15/2) (17/10) (17/10) s).vel_x = s.vel_x ∧
        (moveX key (1/2) (15/2) (17/10) (17/10) s).sprintDecel = none))) ∧
    (s.sprinting = false → s.sprintDecel = some r →
      ((|s.vel_x| > (15/2) * r →
        (moveX key (1/2) (15/2) (17/10) (17/10) s).vel_x = s.vel_x * (99/100) ∧
        (moveX key (1/2) (15/2) (17/10) (17/10) s).sprintDecel = some (r * (99/100))) ∧
      (¬ (|s.vel_x| > (15/2) * r) →
        (moveX key (1/2) (15/2) (17/10) (17/10) s).vel_x = s.vel_x ∧
        (moveX key (1/2) (15/2) (17/10) (17/10) s).sprintDecel = none))) ∧
    (|s.vel_x| = (15/2) * (17/10) → |s.vel_x| / ((15/2) * (17/10)) = 1) := by
  obtain ⟨hvx, hsd⟩ := moveX_noAD key (1/2) (15/2) (17/10) (17/10) s ha hd
  refine ⟨?_, ?_, ?_⟩
  · intro hsp
    constructor
    · intro hgt
      rw [hvx, hsd]
      unfold moveXDecel
      simp [hj, hls, hsp, hgt]
    · intro hle
      rw [hvx, hsd]
      unfold moveXDecel
      simp [hj, hls, hsp, hle]
  · intro hsp hr
    constructor
    · intro hgt
      rw [hvx, hsd]
      unfold moveXDecel
      simp [hj, hls, hsp, hr, hgt]
    · intro hle
      rw [hvx, hsd]
      unfold moveXDecel
      simp [hj, hls, hsp, hr, hle]
  · intro hmax
    rw [hmax]
    norm_num

/-- C4 witness: releasing sprint at sprint-max speed 12.75 captures ratio
1, exceeds the bound 7.5, and decays vx and the ratio by 0.99. -/
theorem sprint_decel_mechanics_witness :
    (moveX keyNone (1/2) (15/2) (17/10) (17/10) kSprint).vel_x
      = kSprint.vel_x * (99/100) ∧
    (moveX keyNone (1/2) (15/2) (17/10) (17/10) kSprint).sprintDecel
      = some ((|kSprint.vel_x| / ((15/2) * (17/10))) * (99/100)) ∧
    |kSprint.vel_x| / ((15/2) * (17/10)) = 1 := by
  have habs : |kSprint.vel_x| = 51/4 := by
    rw [show kSprint.vel_x = 51/4 from rfl]
    exact abs_of_nonneg (by norm_num)
  have h := sprint_decel_mechanics keyNone kSprint 0 rfl rfl rfl rfl
  have hgt : |kSprint.vel_x| > (15/2) * (|kSprint.vel_x| / ((15/2) * (17/10))) := by
    rw [habs]
    norm_num
  obtain ⟨h1, h2⟩ := h.1 rfl
  obtain ⟨h3, h4⟩ := h1 hgt
  exact ⟨h3, h4, h.2.2 (by rw [habs]; norm_num)⟩

/-! ### Claim C3: friction with no movement keys -/

lemma applyFriction_velx (key : Keys) (amt : ℚ) (s : Knight)
    (hk : (key.a || key.d) = false) :
    (applyFriction key amt s).vel_x
      = if s.vel_x > 0 then max 0 (s.vel_x - amt)
        else if s.vel_x < 0 then min 0 (s.vel_x + amt) else s.vel_x := by
  unfold applyFriction
  simp only [hk, Bool.not_false, if_true]
  repeat' split
  all_goals rfl

lemma moveX_noAD_velx_cases (key : Keys) (i m a b : ℚ) (s : Knight)
    (ha : key.a = false) (hd : key.d = false) :
    (moveX key i m a b s).vel_x = s.vel_x ∨
    (moveX key i m a b s).vel_x = s.vel_x * (99/100) := by
  rw [(moveX_noAD key i m a b s ha hd).1]
  exact moveXDecel_velx m b s.sprinting key.lshift { s with sprinting := key.lshift }

/-- C3 (amended): on a tick with neither movement key held and the player
grounded, the horizontal velocity produced by handle_movement never grows
in magnitude, never changes sign (it stops exactly at 0), and shrinks by at
most 1.3 plus one hundredth of the current speed: friction removes at most
1.3, and an active sprint-deceleration window may first multiply vx by
0.99 in the same tick. -/
theorem ground_friction_step (key : Keys) (s : Knight)
    (ha : key.a = false) (hd : key.d = false) (hj : s.jumped = false) :
    |(handleMovement key s).vel_x| ≤ |s.vel_x| ∧
    |s.vel_x| - |(handleMovement key s).vel_x| ≤ 13/10 + |s.vel_x| / 100 ∧
    (0 ≤ s.vel_x → 0 ≤ (handleMovement key s).vel_x) ∧
    (s.vel_x ≤ 0 → (handleMovement key s).vel_x ≤ 0) := by
  have hk : (key.a || key.d) = false := by rw [ha, hd]; rfl
  rw [handleMovement_ground_velx key s hj,
    applyFriction_velx key (13/10) (moveX key (1/2) (15/2) (17/10) (17/10) s) hk]
  rcases moveX_noAD_velx_cases key (1/2) (15/2) (17/10) (17/10) s ha hd with hw | hw <;>
    rw [hw] <;>
    rcases lt_trichotomy s.vel_x 0 with hv | hv | hv
  · rw [if_neg (by linarith), if_pos hv]
    have hmin1 : s.vel_x ≤ min 0 (s.vel_x + 13/10) := le_min (le_of_lt hv) (by linarith)
    have hmin2 : min (0 : ℚ) (s.vel_x + 13/10) ≤ 0 := min_le_left _ _
    have hmin3 : min (0 : ℚ) (s.vel_x + 13/10) ≤ s.vel_x + 13/10 := min_le_right _ _
    rw [abs_of_nonpos hmin2, abs_of_neg hv]
    refine ⟨by linarith, by linarith, fun h => absurd h (by linarith), fun _ => hmin2⟩
  · rw [hv]
    norm_num
  · rw [if_pos hv]
    have hmax1 : (0 : ℚ) ≤ max 0 (s.vel_x - 13/10) := le_max_left _ _
    have hmax2 : max (0 : ℚ) (s.vel_x - 13/10) ≤ s.vel_x :=
      max_le (le_of_lt hv) (by linarith)
    have hmax3 : s.vel_x - 13/10 ≤ max (0 : ℚ) (s.vel_x - 13/10) := le_max_right _ _
    rw [abs_of_nonneg hmax1, abs_of_pos hv]
    refine ⟨hmax2, by linarith, fun _ => hmax1, fun h => absurd h (by linarith)⟩
  · have hw0 : s.vel_x * (99/100) < 0 := by linarith
    rw [if_neg (by linarith), if_pos hw0]
    have hmin1 : s.vel_x ≤ min 0 (s.vel_x * (99/100) + 13/10) :=
      le_min (le_of_lt hv) (by linarith)
    have hmin2 : min (0 : ℚ) (s.vel_x * (99/100) + 13/10) ≤ 0 := min_le_left _ _
    have hmin3 : min (0 : ℚ) (s.vel_x * (99/100) + 13/10) ≤ s.vel_x * (99/100) + 13/10 :=
      min_le_right _ _
    rw [abs_of_nonpos hmin2, abs_of_neg hv]
    refine ⟨by linarith, by linarith, fun h => absurd h (by linarith), fun _ => hmin2⟩
  · rw [hv]
    norm_num
  · have hw0 : (0 : ℚ) < s.vel_x * (99/100) := by linarith
    rw [if_pos hw0]
    have hmax1 : (0 : ℚ) ≤ max 0 (s.vel_x * (99/100) - 13/10) := le_max_left _ _
    have hmax2 : max (0 : ℚ) (s.vel_x * (99/100) - 13/10) ≤ s.vel_x :=
      max_le (le_of_lt hv) (by linarith)
    have hmax3 : s.vel_x * (99/100) - 13/10 ≤ max (0 : ℚ) (s.vel_x * (99/100) - 13/10) :=
      le_max_right _ _
    rw [abs_of_nonneg hmax1, abs_of_pos hv]
    refine ⟨hmax2, by linarith, fun _ => hmax1, fun h => absurd h (by linarith)⟩

/-- C3 witness: friction applied to the resting player keeps vx at 0. -/
theorem ground_friction_step_witness :
    |(handleMovement keyNone baseKnight).vel_x| ≤ |baseKnight.vel_x| ∧
    |baseKnight.vel_x| - |(handleMovement keyNone baseKnight).vel_x|
      ≤ 13/10 + |baseKnight.vel_x| / 100 ∧
    (0 ≤ baseKnight.vel_x → 0 ≤ (handleMovement keyNone baseKnight).vel_x) ∧
    (baseKnight.vel_x ≤ 0 → (handleMovement keyNone baseKnight).vel_x ≤ 0) :=
  ground_friction_step keyNone baseKnight rfl rfl rfl

/-- C3 counterexample: on the tick sprint is released while grounded at
sprint-max speed 12.75 with no movement keys, the deceleration window
multiplies vx by 0.99 before friction subtracts 1.3, so |vx| drops by
1.4275, more than the claimed at-most-1.3 per tick. -/
theorem ground_friction_overstep :
    13/10 < |kSprint.vel_x| - |(handleMovement keyNone kSprint).vel_x| := by
  have habs : |(51 : ℚ)/4| = 51/4 := abs_of_nonneg (by norm_num)
  have habs2 : |(5049 : ℚ)/400| = 5049/400 := abs_of_nonneg (by norm_num)
  have habs3 : |(4529 : ℚ)/400| = 4529/400 := abs_of_nonneg (by norm_num)
  simp only [handleMovement, jumpStep, frictionStep, moveX, moveXSpace, moveXLeft,
    moveXRight, moveXDecel, moveXScaled, moveXTarget, applyFriction,
    keyNone, kSprint, baseKnight, habs]
  norm_num [habs, habs2, habs3]

/-! ### Claim C1: what collision resolution does and does not guarantee -/

lemma hclamp_clear (t : Rect) (rx ry vx : ℚ)
    (h0 : ¬ collide t rx ry knightW knightH) :
    ¬ collide t
      (rx + (if collide t (rx + vx) ry knightW knightH then
               if vx > 0 then t.x - (rx + knightW)
               else if vx < 0 then t.x + t.w - rx else vx
             else vx)) ry knightW knightH := by
  by_cases h1 : collide t (rx + vx) ry knightW knightH
  · rcases lt_trichotomy vx 0 with hx | hx | hx
    · rw [if_pos h1, if_neg (by linarith), if_pos hx]
      intro hc
      simp only [collide] at hc
      obtain ⟨-, -, c3, -⟩ := hc
      linarith
    · rw [if_pos h1, if_neg (by linarith), if_neg (by linarith)]
      rw [hx, add_zero]
      exact h0
    · rw [if_pos h1, if_pos hx]
      intro hc
      simp only [collide] at hc
      obtain ⟨c1, -, -, -⟩ := hc
      linarith
  · rw [if_neg h1]
    exact h1

lemma vclamp_clear (t : Rect) (rx ry vy : ℚ)
    (h0 : ¬ collide t rx ry knightW knightH) :
    ¬ collide t rx
      (ry + (if collide t rx (ry + vy) knightW knightH then
               if vy > 0 then t.y - (ry + knightH)
               else if vy < 0 then t.y + t.h - ry else vy
             else vy)) knightW knightH := by
  by_cases h1 : collide t rx (ry + vy) knightW knightH
  · rcases lt_trichotomy vy 0 with hy | hy | hy
    · rw [if_pos h1, if_neg (by linarith), if_pos hy]
      intro hc
      simp only [collide] at hc
      obtain ⟨-, -, -, c4⟩ := hc
      linarith
    · rw [if_pos h1, if_neg (by linarith), if_neg (by linarith)]
      rw [hy, add_zero]
      exact h0
    · rw [if_pos h1, if_pos hy]
      intro hc
      simp only [collide] at hc
      obtain ⟨-, c2, -, -⟩ := hc
      linarith
  · rw [if_neg h1]
    exact h1

lemma collisionTile_axis_clear (s : Knight) (t : Rect)
    (h0 : ¬ collide t s.rx s.ry knightW knightH) :
    ¬ collide t ((collisionTile s t).rx + (collisionTile s t).vel_x)
        (collisionTile s t).ry knightW knightH ∧
    ¬ collide t (collisionTile s t).rx
        ((collisionTile s t).ry + (collisionTile s t).vel_y) knightW knightH := by
  rw [collisionTile_eq_spec s t]
  have hvx : (specTileStep s t).vel_x
      = (if collide t (s.rx + s.vel_x) s.ry knightW knightH then
           if s.vel_x > 0 then t.x - (s.rx + knightW)
           else if s.vel_x < 0 then t.x + t.w - s.rx else s.vel_x
         else s.vel_x) := rfl
  have hvy : (specTileStep s t).vel_y
      = (if collide t s.rx (s.ry + s.vel_y) knightW knightH then
           if s.vel_y > 0 then t.y - (s.ry + knightH)
           else if s.vel_y < 0 then t.y + t.h - s.ry else s.vel_y
         else s.vel_y) := rfl
  have hrx : (specTileStep s t).rx = s.rx := rfl
  have hry : (specTileStep s t).ry = s.ry := rfl
  rw [hvx, hvy, hrx, hry]
  exact ⟨hclamp_clear t s.rx s.ry s.vel_x h0, vclamp_clear t s.rx s.ry s.vel_y h0⟩

/-- C1 (amended): for a tile set consisting of a single tile that the
player's box does not overlap at the start of the tick, after collision
resolution the pre-tick box offset by the final horizontal velocity alone
does not overlap the tile, and neither does the box offset by the final
vertical velocity alone: no overlap with the tile on either axis.  (The
full claim fails: the combined diagonal displacement applied at position
integration can still land the box on the tile.) -/
theorem single_tile_axis_clear (key : Keys) (t : Rect) (s : Knight)
    (h0 : ¬ collide t s.rx s.ry knightW knightH) :
    ¬ collide t ((tickMid key [t] s).rx + (tickMid key [t] s).vel_x)
        (tickMid key [t] s).ry knightW knightH ∧
    ¬ collide t (tickMid key [t] s).rx
        ((tickMid key [t] s).ry + (tickMid key [t] s).vel_y) knightW knightH := by
  have hmid : tickMid key [t] s
      = collisionTile (applyGravity (handleMovement key (animSel key s))) t := rfl
  have h3 : (applyGravity (handleMovement key (animSel key s))).rx = s.rx ∧
      (applyGravity (handleMovement key (animSel key s))).ry = s.ry := by
    obtain ⟨a1, a2, -, -, -, -, -, -⟩ := animSel_untouched key s
    obtain ⟨p1, p2, -, -⟩ := handleMovement_position key (animSel key s)
    obtain ⟨g1, g2, -, -, -, -⟩ := applyGravity_untouched (handleMovement key (animSel key s))
    exact ⟨g1.trans (p1.trans a1), g2.trans (p2.trans a2)⟩
  have h0' : ¬ collide t (applyGravity (handleMovement key (animSel key s))).rx
      (applyGravity (handleMovement key (animSel key s))).ry knightW knightH := by
    rw [h3.1, h3.2]
    exact h0
  rw [hmid]
  exact collisionTile_axis_clear (applyGravity (handleMovement key (animSel key s))) t h0'

/-- A tile far from the origin, overlapping nothing near the player. -/
def tFar : Rect := ⟨500, 500, 50, 50⟩

/-- C1 witness: the resting player near the origin against a distant tile. -/
theorem single_tile_axis_clear_witness :
    ¬ collide tFar ((tickMid keyNone [tFar] baseKnight).rx
        + (tickMid keyNone [tFar] baseKnight).vel_x)
        (tickMid keyNone [tFar] baseKnight).ry knightW knightH ∧
    ¬ collide tFar (tickMid keyNone [tFar] baseKnight).rx
        ((tickMid keyNone [tFar] baseKnight).ry
          + (tickMid keyNone [tFar] baseKnight).vel_y) knightW knightH :=
  single_tile_axis_clear keyNone tFar baseKnight
    (by norm_num [collide, tFar, baseKnight, knightW, knightH])

/-- C1 counterexample: corner tunneling.  The airborne player at the origin
moving (7.5, 6 after gravity) against the single tile (54, 70, 50, 50)
passes both single-axis tests (the horizontally offset box misses the tile
vertically, the vertically offset box misses it horizontally), so neither
velocity is clamped, and after position integration the box at (7.5, 6)
overlaps the tile: the tick ends with the bounding box overlapping a tile. -/
theorem tick_corner_overlap :
    collide tCorner (tick keyNone [tCorner] 1000 kCorner).rx
      (tick keyNone [tCorner] 1000 kCorner).ry knightW knightH := by
  simp only [tick, clampPosition, handleCollisions, List.foldl, collisionTile,
    applyGravity, handleMovement, jumpStep, frictionStep, applyFriction, moveX,
    moveXSpace, moveXRight, moveXLeft, moveXDecel, moveXScaled, moveXTarget,
    animSel, animate, collide, knightW, knightH, keyNone, kCorner, baseKnight, tCorner]
  norm_num
